import Mathlib

/-!
Shallow embedding of the pyHEP core (fourmomentum.py, particles.py, event.py).

Python floats are modelled as real numbers.  Python operations that can raise
(`math.sqrt` of a negative argument, float division by zero, explicit `raise`
statements, attribute lookup of a missing name) are modelled with `Except Err`;
total attribute reads and assignments are plain functions.
-/

namespace PyHEP

open Real

/-- Error kinds raised by the Python code: `ValueError` in the numeric setters
is `invalidValue`, `ValueError` on malformed construction input is
`invalidArgument`, `NotImplementedError` is `notImplemented`,
`AttributeError` on a missing attribute is `attributeError` or, for a
never-assigned instance attribute, `unboundState`, and float
`ZeroDivisionError` is `zeroDivision`. -/
inductive Err where
  | invalidValue
  | invalidArgument
  | notImplemented
  | unboundState
  | attributeError
  | zeroDivision
deriving DecidableEq, Repr

/-- The stored state of `FourMomentum`: cartesian momentum components
`x`, `y`, `z` and the invariant mass `m` (attribute `_m` in the source). -/
structure FourMomentum where
  x : ℝ
  y : ℝ
  z : ℝ
  m : ℝ

namespace FourMomentum

/-- `FourMomentum.__init__`: all four stored components are zero. -/
def init : FourMomentum := ⟨0, 0, 0, 0⟩

/-- Getter `px` (alias of the stored `x`). -/
def px (fm : FourMomentum) : ℝ := fm.x

/-- Getter `py` (alias of the stored `y`). -/
def py (fm : FourMomentum) : ℝ := fm.y

/-- Getter `pz` (alias of the stored `z`). -/
def pz (fm : FourMomentum) : ℝ := fm.z

/-- Getter `mass` (alias of the stored `_m`). -/
def mass (fm : FourMomentum) : ℝ := fm.m

/-- Getter `p`: `sqrt(x**2 + y**2 + z**2)`. -/
noncomputable def p (fm : FourMomentum) : ℝ :=
  Real.sqrt (fm.x ^ 2 + fm.y ^ 2 + fm.z ^ 2)

/-- Getter `pt`: `sqrt(x**2 + y**2)`. -/
noncomputable def pt (fm : FourMomentum) : ℝ :=
  Real.sqrt (fm.x ^ 2 + fm.y ^ 2)

/-- Getter `energy`: `sqrt(mass**2 + p**2)`. -/
noncomputable def energy (fm : FourMomentum) : ℝ :=
  Real.sqrt (fm.m ^ 2 + p fm ^ 2)

/-- Python `math.atan2 y x` on reals (ignoring signed zeros, which do not
exist in `ℝ`). -/
noncomputable def atan2 (y x : ℝ) : ℝ :=
  if 0 < x then Real.arctan (y / x)
  else if x < 0 then
    (if 0 ≤ y then Real.arctan (y / x) + Real.pi else Real.arctan (y / x) - Real.pi)
  else if 0 < y then Real.pi / 2
  else if y < 0 then -(Real.pi / 2)
  else 0

/-- Getter `phi`: `atan2(py, px)`. -/
noncomputable def phi (fm : FourMomentum) : ℝ := atan2 fm.y fm.x

/-- Getter `theta`: `acos(z / p)`; the float division raises
`ZeroDivisionError` when `p == 0`. -/
noncomputable def theta (fm : FourMomentum) : Except Err ℝ :=
  if p fm = 0 then .error .zeroDivision
  else .ok (Real.arccos (fm.z / p fm))

/-- Classmethod `from_x_y_z_m`: store the three momentum components and the
mass directly. -/
def from_x_y_z_m (x y z m : ℝ) : FourMomentum := ⟨x, y, z, m⟩

/-- Classmethod `from_x_y_z_e`: `m = sqrt(e**2 - x**2 - y**2 - z**2)`;
`math.sqrt` raises `ValueError` when its argument is negative. -/
noncomputable def from_x_y_z_e (x y z e : ℝ) : Except Err FourMomentum :=
  if e ^ 2 - x ^ 2 - y ^ 2 - z ^ 2 < 0 then .error .invalidValue
  else .ok (from_x_y_z_m x y z (Real.sqrt (e ^ 2 - x ^ 2 - y ^ 2 - z ^ 2)))

/-- The loop `while theta > pi: theta -= pi` of the eta setters and the
`from_pt_eta_phi_*` constructors. -/
noncomputable def subPiLoop (t : ℝ) : ℝ :=
  if h : Real.pi < t then subPiLoop (t - Real.pi) else t
termination_by (⌈t / Real.pi⌉).toNat
decreasing_by
  have hπ : (0:ℝ) < Real.pi := Real.pi_pos
  have h1 : (1:ℝ) < t / Real.pi := (one_lt_div hπ).mpr h
  have h2 : (1:ℤ) < ⌈t / Real.pi⌉ := by
    exact_mod_cast Int.lt_ceil.mpr (by exact_mod_cast h1)
  have h3 : (t - Real.pi) / Real.pi = t / Real.pi - 1 := by
    rw [sub_div, div_self hπ.ne']
  rw [h3, Int.ceil_sub_one]
  omega

/-- The loop `while theta < 0: theta += pi` of the eta setters and the
`from_pt_eta_phi_*` constructors. -/
noncomputable def addPiLoop (t : ℝ) : ℝ :=
  if h : t < 0 then addPiLoop (t + Real.pi) else t
termination_by (⌈-t / Real.pi⌉).toNat
decreasing_by
  have hπ : (0:ℝ) < Real.pi := Real.pi_pos
  have h1 : (0:ℝ) < -t / Real.pi := div_pos (neg_pos.mpr h) hπ
  have h2 : (0:ℤ) < ⌈-t / Real.pi⌉ := Int.ceil_pos.mpr h1
  have h3 : -(t + Real.pi) / Real.pi = -t / Real.pi - 1 := by
    field_simp
    ring
  rw [h3, Int.ceil_sub_one]
  omega

/-- The eta-to-theta conversion shared (verbatim, inlined in the source) by
the `eta` setter and the `from_pt_eta_phi_m` / `from_pt_eta_phi_e`
constructors: `theta = 2*atan(-exp(eta))` followed by the two
normalization loops, subtract-loop first. -/
noncomputable def eta_to_theta (η : ℝ) : ℝ :=
  addPiLoop (subPiLoop (2 * Real.arctan (-Real.exp η)))

/-- Classmethod `from_pt_eta_phi_m`.  Note the source computes
`y = pt*sin(phi)` with `sin`, the same expression as `x` (embedded
faithfully), and `z = pt*tan(theta)` from the normalized theta. -/
noncomputable def from_pt_eta_phi_m (ptv η φ m : ℝ) : FourMomentum :=
  from_x_y_z_m (ptv * Real.sin φ) (ptv * Real.sin φ)
    (ptv * Real.tan (eta_to_theta η)) m

/-- Setter `px`: plain assignment to `x`. -/
def set_px (v : ℝ) (fm : FourMomentum) : FourMomentum := { fm with x := v }

/-- Setter `py`: plain assignment to `y`. -/
def set_py (v : ℝ) (fm : FourMomentum) : FourMomentum := { fm with y := v }

/-- Setter `pz`: plain assignment to `z`. -/
def set_pz (v : ℝ) (fm : FourMomentum) : FourMomentum := { fm with z := v }

/-- Setter `mass`: always raises `NotImplementedError`. -/
def set_mass (_v : ℝ) (_fm : FourMomentum) : Except Err FourMomentum :=
  .error .notImplemented

/-- Setter `energy`: rejects a negative target with `ValueError`;
`math.sqrt(value**2 - mass**2)` raises `ValueError` when the argument is
negative; the scale `new_p / p` raises `ZeroDivisionError` when `p == 0`;
otherwise each momentum component is multiplied by the scale. -/
noncomputable def set_energy (v : ℝ) (fm : FourMomentum) : Except Err FourMomentum :=
  if v < 0 then .error .invalidValue
  else if v ^ 2 - fm.m ^ 2 < 0 then .error .invalidValue
  else if p fm = 0 then .error .zeroDivision
  else
    .ok { fm with
          x := fm.x * (Real.sqrt (v ^ 2 - fm.m ^ 2) / p fm),
          y := fm.y * (Real.sqrt (v ^ 2 - fm.m ^ 2) / p fm),
          z := fm.z * (Real.sqrt (v ^ 2 - fm.m ^ 2) / p fm) }

/-- Setter `pt`: rejects a negative target with `ValueError`; reads `phi`
first, writes `px = value*sin(phi)` and `py = value*cos(phi)`, then assigns
`energy = sqrt(p**2 + mass**2)` through the energy setter. -/
noncomputable def set_pt (v : ℝ) (fm : FourMomentum) : Except Err FourMomentum :=
  if v < 0 then .error .invalidValue
  else
    let φ := phi fm
    let fm1 : FourMomentum := { fm with x := v * Real.sin φ, y := v * Real.cos φ }
    set_energy (Real.sqrt (p fm1 ^ 2 + fm1.m ^ 2)) fm1

/-- Setter `phi`: reads `pt` first, then writes `x = pt*sin(value)` and
`y = pt*cos(value)`. -/
noncomputable def set_phi (v : ℝ) (fm : FourMomentum) : FourMomentum :=
  { fm with x := pt fm * Real.sin v, y := pt fm * Real.cos v }

/-- Setter `theta`: captures `p` first, then assigns
`pt = p*abs(sin(value))` through the pt setter and `pz = p*cos(value)`. -/
noncomputable def set_theta (v : ℝ) (fm : FourMomentum) : Except Err FourMomentum :=
  match set_pt (p fm * |Real.sin v|) fm with
  | .error e => .error e
  | .ok fm1 => .ok { fm1 with z := p fm * Real.cos v }

/-- Setter `eta`: converts eta to a normalized theta (the two loops) and
assigns it through the theta setter. -/
noncomputable def set_eta (v : ℝ) (fm : FourMomentum) : Except Err FourMomentum :=
  set_theta (eta_to_theta v) fm

/-- Setter `p`: reads `theta` (which can raise on `p == 0`), then assigns
`pt = value*abs(sin(theta))` and `pz = value*cos(theta)`. -/
noncomputable def set_p (v : ℝ) (fm : FourMomentum) : Except Err FourMomentum :=
  match theta fm with
  | .error e => .error e
  | .ok θ =>
    match set_pt (v * |Real.sin θ|) fm with
    | .error e => .error e
    | .ok fm1 => .ok { fm1 with z := v * Real.cos θ }

/-- Operator `__add__`: delegates to `from_x_y_z_e` on the componentwise sums
of the momenta and of the energies. -/
noncomputable def fm_add (a b : FourMomentum) : Except Err FourMomentum :=
  from_x_y_z_e (a.x + b.x) (a.y + b.y) (a.z + b.z) (energy a + energy b)

end FourMomentum

/-- The stored state of a particle (particles.py).  `status` and `isolation`
are instance attributes that some constructors never assign; a `none` value
models an absent attribute (`hasattr` false / `AttributeError` on read). -/
structure Particle where
  p4 : FourMomentum
  pdgID : Int
  charge : Int
  status : Option Int
  isolation : Option ℝ

/-- `Particle.__init__`: stores `p4`, `pdgID` and `charge`; neither `status`
nor `isolation` is ever assigned. -/
def particle_init (p4 : FourMomentum) (pdgID charge : Int) : Particle :=
  ⟨p4, pdgID, charge, none, none⟩

/-- `Lepton.__init__`: raises `ValueError` unless the charge is `-1` or `1`,
then delegates to `Particle.__init__` and assigns `isolation = 0.`. -/
def lepton_init (p4 : FourMomentum) (pdgID charge : Int) : Except Err Particle :=
  if charge = -1 ∨ charge = 1 then
    .ok { particle_init p4 pdgID charge with isolation := some 0 }
  else .error .invalidArgument

/-- `Electron.__init__`: `Lepton.__init__` with `pdgID` fixed to 11. -/
def electron_init (p4 : FourMomentum) (charge : Int) : Except Err Particle :=
  lepton_init p4 11 charge

/-- `Muon.__init__`: `Lepton.__init__` with `pdgID` fixed to 13. -/
def muon_init (p4 : FourMomentum) (charge : Int) : Except Err Particle :=
  lepton_init p4 13 charge

/-- `GenParticle.__init__`: `Particle.__init__` plus the generator status. -/
def genparticle_init (p4 : FourMomentum) (pdgID charge status : Int) : Particle :=
  ⟨p4, pdgID, charge, some status, none⟩

/-- Reading the `isolation` attribute: raises (modelled as the `UnboundState`
condition, Python `AttributeError`) when the attribute was never assigned. -/
def read_isolation (pcl : Particle) : Except Err ℝ :=
  match pcl.isolation with
  | none => .error .unboundState
  | some v => .ok v

/-- The stored state of an `Event` (event.py): the ordered particle list
`particles_`.  The metadata dictionary is carried along untouched by every
operation the theorems below concern, and is omitted. -/
structure Event where
  particles_ : List Particle

/-- The method names defined in the body of class `Event` in event.py;
calling a name outside this list raises `AttributeError`. -/
def event_method_names : List String :=
  ["__init__", "particles", "particles_with_pdgID", "electrons", "muons",
   "met", "add_particle"]

/-- `Event.particles_with_pdgID`: filter by `abs(particle.pdgID) == pdgId`. -/
def particles_with_pdgID (ev : Event) (pdgId : Int) : List Particle :=
  ev.particles_.filter (fun pcl => |pcl.pdgID| = pdgId)

/-- `Event.electrons`: the body calls `self.particles_with_pdgId(11)`; the
attribute lookup of that (misspelled) name fails unless it is among the
method names actually defined on the class. -/
def electrons (ev : Event) : Except Err (List Particle) :=
  if "particles_with_pdgId" ∈ event_method_names then
    .ok (particles_with_pdgID ev 11)
  else .error .attributeError

/-- `Event.muons`: the body calls `self.particles_with_pdgId(13)` and is
subject to the same attribute lookup. -/
def muons (ev : Event) : Except Err (List Particle) :=
  if "particles_with_pdgId" ∈ event_method_names then
    .ok (particles_with_pdgID ev 13)
  else .error .attributeError

/-- One step of Python `sum` over four-momenta: add the next particle's `p4`
to the running total unless an exception is already propagating. -/
noncomputable def addStep (acc : Except Err FourMomentum) (pcl : Particle) :
    Except Err FourMomentum :=
  match acc with
  | .error e => .error e
  | .ok a => FourMomentum.fm_add a pcl.p4

/-- `Event.met`: `sum([p.p4 for p in self.particles() if p.pdgID not in
pdgIDs_to_ignore], FourMomentum())`, i.e. a left fold of `__add__` over the
kept four-momenta starting from the zero vector (a raised exception
propagates through the fold). -/
noncomputable def met (ev : Event) (pdgIDs_to_ignore : List Int) :
    Except Err FourMomentum :=
  (ev.particles_.filter (fun pcl => pcl.pdgID ∉ pdgIDs_to_ignore)).foldl
    addStep (.ok FourMomentum.init)

/-- `Event.add_particle`: appends unconditionally. -/
def add_particle (ev : Event) (pcl : Particle) : Event :=
  ⟨ev.particles_ ++ [pcl]⟩

/-- `GenEvent.add_particle`: raises `ValueError` when the particle has no
`status` attribute, otherwise appends. -/
def gen_add_particle (ev : Event) (pcl : Particle) : Except Err Event :=
  if pcl.status.isSome then .ok ⟨ev.particles_ ++ [pcl]⟩
  else .error .invalidArgument

/-- `GenEvent.met`: like `Event.met` but over `self.particles(status_filter)`
with `status == 1`, then the same pdgID exclusion and the same sum. -/
noncomputable def gen_met (ev : Event) (pdgIDs_to_ignore : List Int) :
    Except Err FourMomentum :=
  ((ev.particles_.filter (fun pcl => pcl.status = some 1)).filter
      (fun pcl => pcl.pdgID ∉ pdgIDs_to_ignore)).foldl
    addStep (.ok FourMomentum.init)

/-! ## Helper lemmas -/

/-- Evaluate a square root at a perfect square. -/
lemma sqrt_eval {a b : ℝ} (hb : 0 ≤ b) (h : b ^ 2 = a) : Real.sqrt a = b := by
  rw [← h]; exact Real.sqrt_sq hb

/-- C10: For every Event, calling electrons() or muons() always fails with an
attribute error, for any contents of the event: both delegate to a method
named particles_with_pdgId, which does not exist (the defined method is
particles_with_pdgID), so these two public queries are unusable. -/
theorem electrons_muons_always_fail (ev : Event) :
    electrons ev = .error .attributeError ∧
    muons ev = .error .attributeError ∧
    "particles_with_pdgID" ∈ event_method_names ∧
    "particles_with_pdgId" ∉ event_method_names := by
  have hnot : "particles_with_pdgId" ∉ event_method_names := by decide
  exact ⟨by rw [electrons, if_neg hnot], by rw [muons, if_neg hnot],
    by decide, hnot⟩

/-- Witness for `electrons_muons_always_fail` at the empty event. -/
theorem electrons_muons_always_fail_witness :
    electrons ⟨[]⟩ = .error .attributeError ∧
    muons ⟨[]⟩ = .error .attributeError :=
  ⟨(electrons_muons_always_fail ⟨[]⟩).1,
    (electrons_muons_always_fail ⟨[]⟩).2.1⟩

/-- C6: For every generator-level event and every particle p,
GenEvent.add_particle(p) fails with an InvalidArgument condition if and only
if p lacks a generator status field; on success p is appended to the event's
particle sequence; for generic Events, add_particle always succeeds. -/
theorem add_particle_spec (ev : Event) (pcl : Particle) :
    (gen_add_particle ev pcl = .error .invalidArgument ↔ pcl.status = none) ∧
    (∀ ev', gen_add_particle ev pcl = .ok ev' →
      ev'.particles_ = ev.particles_ ++ [pcl]) ∧
    (add_particle ev pcl).particles_ = ev.particles_ ++ [pcl] := by
  refine ⟨?_, ?_, rfl⟩
  · unfold gen_add_particle
    cases hs : pcl.status <;> simp [hs]
  · intro ev' h
    unfold gen_add_particle at h
    cases hs : pcl.status <;> rw [hs] at h <;> simp at h
    rw [← h]

/-- Witness for `add_particle_spec` at a status-less particle and the empty
event. -/
theorem add_particle_spec_witness :
    gen_add_particle ⟨[]⟩ (particle_init FourMomentum.init 11 (-1)) =
      .error .invalidArgument ∧
    (add_particle ⟨[]⟩ (particle_init FourMomentum.init 11 (-1))).particles_ =
      [particle_init FourMomentum.init 11 (-1)] := by
  refine ⟨(add_particle_spec ⟨[]⟩ _).1.mpr rfl, ?_⟩
  have h := (add_particle_spec ⟨[]⟩ (particle_init FourMomentum.init 11 (-1))).2.2
  simpa using h

/-- C7 counterexample: a Lepton constructed without an isolation value has
its isolation attribute initialized to 0.0, so reading it succeeds (returns
0.0) instead of failing with an UnboundState condition. -/
theorem lepton_isolation_read_succeeds :
    lepton_init FourMomentum.init 11 1 =
      .ok ⟨FourMomentum.init, 11, 1, none, some 0⟩ ∧
    read_isolation ⟨FourMomentum.init, 11, 1, none, some 0⟩ = .ok 0 ∧
    read_isolation ⟨FourMomentum.init, 11, 1, none, some 0⟩ ≠
      .error .unboundState := by
  refine ⟨?_, rfl, by simp [read_isolation]⟩
  unfold lepton_init particle_init
  rw [if_pos (Or.inr rfl)]

/-- C7 amended: every successfully constructed Lepton (and hence every
Electron and Muon) has isolation initialized to 0.0 and reading it succeeds,
returning 0.0; only a base Particle, which never assigns the attribute,
fails with the UnboundState condition. -/
theorem lepton_isolation_default (p4 : FourMomentum) (pdgID charge : Int)
    (pcl : Particle) :
    (lepton_init p4 pdgID charge = .ok pcl →
      pcl.isolation = some 0 ∧ read_isolation pcl = .ok 0) ∧
    electron_init p4 charge = lepton_init p4 11 charge ∧
    muon_init p4 charge = lepton_init p4 13 charge ∧
    read_isolation (particle_init p4 pdgID charge) = .error .unboundState := by
  refine ⟨?_, rfl, rfl, rfl⟩
  intro h
  unfold lepton_init particle_init at h
  split_ifs at h with hc
  simp only [Except.ok.injEq] at h
  subst h
  exact ⟨rfl, rfl⟩

/-- Witness for `lepton_isolation_default` at a concretely constructed
Lepton. -/
theorem lepton_isolation_default_witness :
    (⟨FourMomentum.init, 13, -1, none, some 0⟩ : Particle).isolation = some 0 ∧
    read_isolation ⟨FourMomentum.init, 13, -1, none, some 0⟩ = .ok 0 :=
  (lepton_isolation_default FourMomentum.init 13 (-1)
    ⟨FourMomentum.init, 13, -1, none, some 0⟩).1
    (by unfold lepton_init particle_init; rw [if_pos (Or.inl rfl)])

/-- C9 counterexample: the unrestricted claim is false for a constructible
negative stored mass.  On the zero-momentum vector with mass -1, the target
energy V = -1/2 satisfies V >= mass, yet the write raises ValueError (the
InvalidValue condition, from the `value < 0` guard), not a
division-by-zero. -/
theorem set_energy_zero_p_neg_mass_cex :
    FourMomentum.set_energy (-(1:ℝ)/2) (FourMomentum.from_x_y_z_m 0 0 0 (-1)) =
      .error .invalidValue ∧
    (FourMomentum.from_x_y_z_m 0 0 0 (-1)).x = 0 ∧
    (FourMomentum.from_x_y_z_m 0 0 0 (-1)).y = 0 ∧
    (FourMomentum.from_x_y_z_m 0 0 0 (-1)).z = 0 ∧
    (FourMomentum.from_x_y_z_m 0 0 0 (-1)).m ≤ -(1:ℝ)/2 ∧
    Err.invalidValue ≠ Err.zeroDivision := by
  refine ⟨?_, rfl, rfl, rfl, by show (-1:ℝ) ≤ -(1:ℝ)/2; norm_num, by decide⟩
  unfold FourMomentum.set_energy
  rw [if_pos (show -(1:ℝ)/2 < 0 by norm_num)]

/-- C9 amended: for every FourMomentum whose three-momentum is zero and
whose stored mass is nonnegative, setting energy to any V with V >= mass
raises a division-by-zero error (the rescale factor new_p / p is computed
with p == 0), rather than succeeding or raising InvalidValue. -/
theorem zero_momentum_energy_div_by_zero (fm : FourMomentum) (v : ℝ)
    (hx : fm.x = 0) (hy : fm.y = 0) (hz : fm.z = 0) (hm : 0 ≤ fm.m)
    (hv : fm.m ≤ v) :
    FourMomentum.set_energy v fm = .error .zeroDivision := by
  have hv0 : ¬ v < 0 := not_lt.mpr (le_trans hm hv)
  have hsq : ¬ v ^ 2 - fm.m ^ 2 < 0 := by nlinarith
  have hp : FourMomentum.p fm = 0 := by
    unfold FourMomentum.p
    rw [hx, hy, hz]
    norm_num
  unfold FourMomentum.set_energy
  rw [if_neg hv0, if_neg hsq, if_pos hp]

/-- Witness for `zero_momentum_energy_div_by_zero` at the zero-momentum
vector with mass 1 and target energy 3. -/
theorem zero_momentum_energy_div_by_zero_witness :
    FourMomentum.set_energy 3 (FourMomentum.from_x_y_z_m 0 0 0 1) =
      .error .zeroDivision :=
  zero_momentum_energy_div_by_zero _ 3 rfl rfl rfl
    (by show (0:ℝ) ≤ 1; norm_num) (by show (1:ℝ) ≤ 3; norm_num)

/-- The subtract-loop is the identity when its guard is initially false. -/
lemma subPiLoop_id {t : ℝ} (h : ¬ Real.pi < t) :
    FourMomentum.subPiLoop t = t := by
  unfold FourMomentum.subPiLoop
  exact dif_neg h

/-- The add-loop is the identity when its guard is initially false. -/
lemma addPiLoop_id {t : ℝ} (h : ¬ t < 0) :
    FourMomentum.addPiLoop t = t := by
  unfold FourMomentum.addPiLoop
  exact dif_neg h

/-- The add-loop runs exactly once when one offset by pi reaches the
nonnegative range. -/
lemma addPiLoop_once {t : ℝ} (h1 : t < 0) (h2 : ¬ t + Real.pi < 0) :
    FourMomentum.addPiLoop t = t + Real.pi := by
  have hstep : FourMomentum.addPiLoop t = FourMomentum.addPiLoop (t + Real.pi) := by
    conv_lhs => unfold FourMomentum.addPiLoop
    exact dif_pos h1
  rw [hstep]
  exact addPiLoop_id h2

/-- The normalized theta obtained from any eta is strictly inside (0, pi). -/
lemma eta_to_theta_bounds (η : ℝ) :
    0 < FourMomentum.eta_to_theta η ∧ FourMomentum.eta_to_theta η < Real.pi := by
  have hπ : (0:ℝ) < Real.pi := Real.pi_pos
  have h1 : Real.arctan (-Real.exp η) < 0 := by
    have hneg : -Real.exp η < (0:ℝ) := neg_lt_zero.mpr (Real.exp_pos η)
    calc Real.arctan (-Real.exp η) < Real.arctan 0 :=
          Real.arctan_strictMono hneg
      _ = 0 := Real.arctan_zero
  have h2 : -(Real.pi / 2) < Real.arctan (-Real.exp η) :=
    Real.neg_pi_div_two_lt_arctan _
  have ht1 : 2 * Real.arctan (-Real.exp η) < 0 := by linarith
  have ht2 : -Real.pi < 2 * Real.arctan (-Real.exp η) := by linarith
  unfold FourMomentum.eta_to_theta
  rw [subPiLoop_id (by linarith), addPiLoop_once ht1 (by linarith)]
  constructor <;> linarith

/-- C8: For every real eta, the eta-to-theta conversion used by the eta
setter and the from_pt_eta_phi constructors computes
theta = 2*atan(-exp(eta)) and then normalizes it by repeatedly adding or
subtracting pi; the loops (defined by well-founded recursion, hence
terminating) produce a result in [0, pi). -/
theorem eta_to_theta_spec (η : ℝ) :
    FourMomentum.eta_to_theta η =
      FourMomentum.addPiLoop
        (FourMomentum.subPiLoop (2 * Real.arctan (-Real.exp η))) ∧
    0 ≤ FourMomentum.eta_to_theta η ∧
    FourMomentum.eta_to_theta η < Real.pi ∧
    (∀ fm, FourMomentum.set_eta η fm =
      FourMomentum.set_theta (FourMomentum.eta_to_theta η) fm) ∧
    (∀ ptv φ m, (FourMomentum.from_pt_eta_phi_m ptv η φ m).z =
      ptv * Real.tan (FourMomentum.eta_to_theta η)) :=
  ⟨rfl, (eta_to_theta_bounds η).1.le, (eta_to_theta_bounds η).2,
    fun _ => rfl, fun _ _ _ => rfl⟩

/-- Witness for `eta_to_theta_spec` at eta = 0. -/
theorem eta_to_theta_spec_witness :
    0 ≤ FourMomentum.eta_to_theta 0 ∧
    FourMomentum.eta_to_theta 0 < Real.pi :=
  ⟨(eta_to_theta_spec 0).2.1, (eta_to_theta_spec 0).2.2.1⟩

/-- A successful energy write never touches the stored mass. -/
lemma set_energy_ok_m {v : ℝ} {fm fm' : FourMomentum}
    (h : FourMomentum.set_energy v fm = .ok fm') : fm'.m = fm.m := by
  unfold FourMomentum.set_energy at h
  split_ifs at h
  simp only [Except.ok.injEq] at h
  subst h
  rfl

/-- A successful pt write never touches the stored mass. -/
lemma set_pt_ok_m {v : ℝ} {fm fm' : FourMomentum}
    (h : FourMomentum.set_pt v fm = .ok fm') : fm'.m = fm.m := by
  unfold FourMomentum.set_pt at h
  split_ifs at h
  have h2 := set_energy_ok_m h
  exact h2

/-- A successful theta write never touches the stored mass. -/
lemma set_theta_ok_m {v : ℝ} {fm fm' : FourMomentum}
    (h : FourMomentum.set_theta v fm = .ok fm') : fm'.m = fm.m := by
  unfold FourMomentum.set_theta at h
  cases hpt : FourMomentum.set_pt (FourMomentum.p fm * |Real.sin v|) fm with
  | error e =>
    simp only [hpt] at h
    exact Except.noConfusion h
  | ok fm1 =>
    simp only [hpt, Except.ok.injEq] at h
    subst h
    have h2 := set_pt_ok_m hpt
    exact h2

/-- A successful eta write never touches the stored mass. -/
lemma set_eta_ok_m {v : ℝ} {fm fm' : FourMomentum}
    (h : FourMomentum.set_eta v fm = .ok fm') : fm'.m = fm.m := by
  unfold FourMomentum.set_eta at h
  exact set_theta_ok_m h

/-- A successful p write never touches the stored mass. -/
lemma set_p_ok_m {v : ℝ} {fm fm' : FourMomentum}
    (h : FourMomentum.set_p v fm = .ok fm') : fm'.m = fm.m := by
  unfold FourMomentum.set_p at h
  cases hθ : FourMomentum.theta fm with
  | error e =>
    simp only [hθ] at h
    exact Except.noConfusion h
  | ok θ =>
    simp only [hθ] at h
    cases hpt : FourMomentum.set_pt (v * |Real.sin θ|) fm with
    | error e =>
      simp only [hpt] at h
      exact Except.noConfusion h
    | ok fm1 =>
      simp only [hpt, Except.ok.injEq] at h
      subst h
      have h2 := set_pt_ok_m hpt
      exact h2

/-- C5: For every FourMomentum, the stored invariant mass is unchanged by
every setter (px, py, pz, p, pt, phi, theta, eta, energy), and assigning to
the mass accessor directly fails; consequently
energy^2 - p^2 == mass^2 holds after every operation. -/
theorem mass_immutable (fm fm' : FourMomentum) (v : ℝ) :
    (FourMomentum.set_px v fm).m = fm.m ∧
    (FourMomentum.set_py v fm).m = fm.m ∧
    (FourMomentum.set_pz v fm).m = fm.m ∧
    (FourMomentum.set_phi v fm).m = fm.m ∧
    (FourMomentum.set_p v fm = .ok fm' → fm'.m = fm.m) ∧
    (FourMomentum.set_pt v fm = .ok fm' → fm'.m = fm.m) ∧
    (FourMomentum.set_theta v fm = .ok fm' → fm'.m = fm.m) ∧
    (FourMomentum.set_eta v fm = .ok fm' → fm'.m = fm.m) ∧
    (FourMomentum.set_energy v fm = .ok fm' → fm'.m = fm.m) ∧
    FourMomentum.set_mass v fm = .error .notImplemented ∧
    FourMomentum.energy fm ^ 2 - FourMomentum.p fm ^ 2 =
      FourMomentum.mass fm ^ 2 := by
  refine ⟨rfl, rfl, rfl, rfl, set_p_ok_m, set_pt_ok_m, set_theta_ok_m,
    set_eta_ok_m, set_energy_ok_m, rfl, ?_⟩
  unfold FourMomentum.energy FourMomentum.mass
  rw [Real.sq_sqrt (by positivity)]
  ring

/-- Witness for `mass_immutable`: a concrete successful energy write on
(3, 0, 0; m = 4) leaves the mass untouched. -/
theorem mass_immutable_witness :
    FourMomentum.set_energy 5 (FourMomentum.from_x_y_z_m 3 0 0 4) =
      .ok (FourMomentum.from_x_y_z_m 3 0 0 4) ∧
    (FourMomentum.from_x_y_z_m 3 0 0 4).m =
      (FourMomentum.from_x_y_z_m 3 0 0 4).m := by
  have hp : FourMomentum.p (FourMomentum.from_x_y_z_m 3 0 0 4) = 3 := by
    unfold FourMomentum.p FourMomentum.from_x_y_z_m
    exact sqrt_eval (by norm_num) (by norm_num)
  have h9 : Real.sqrt ((5:ℝ) ^ 2 -
      (FourMomentum.from_x_y_z_m 3 0 0 4).m ^ 2) = 3 := by
    rw [show (5:ℝ) ^ 2 - (FourMomentum.from_x_y_z_m 3 0 0 4).m ^ 2 = 9 from by
      show (5:ℝ) ^ 2 - (4:ℝ) ^ 2 = 9; norm_num]
    exact sqrt_eval (by norm_num) (by norm_num)
  have hok : FourMomentum.set_energy 5 (FourMomentum.from_x_y_z_m 3 0 0 4) =
      .ok (FourMomentum.from_x_y_z_m 3 0 0 4) := by
    unfold FourMomentum.set_energy
    rw [if_neg (show ¬ ((5:ℝ) < 0) by norm_num),
      if_neg (show ¬ ((5:ℝ) ^ 2 -
        (FourMomentum.from_x_y_z_m 3 0 0 4).m ^ 2 < 0) from by
          show ¬ ((5:ℝ) ^ 2 - (4:ℝ) ^ 2 < 0); norm_num),
      if_neg (show ¬ (FourMomentum.p (FourMomentum.from_x_y_z_m 3 0 0 4) = 0)
        from by rw [hp]; norm_num)]
    rw [hp, h9]
    show Except.ok (FourMomentum.mk (3 * (3 / 3)) (0 * (3 / 3)) (0 * (3 / 3)) 4)
      = Except.ok (FourMomentum.mk 3 0 0 4)
    norm_num
  exact ⟨hok, (mass_immutable _ _ 5).2.2.2.2.2.2.2.2.1 hok⟩

/-- C3 counterexample: on the zero-momentum vector with mass 1 and target
energy 2 both InvalidValue guards pass (2 >= 0 and 2^2 - 1^2 >= 0), yet the
energy write does not succeed: it fails with a division-by-zero. -/
theorem set_energy_zero_p_cex :
    FourMomentum.set_energy 2 (FourMomentum.from_x_y_z_m 0 0 0 1) =
      .error .zeroDivision ∧
    ¬ ((2:ℝ) < 0) ∧ ¬ ((2:ℝ) ^ 2 - (1:ℝ) ^ 2 < 0) := by
  refine ⟨?_, by norm_num, by norm_num⟩
  unfold FourMomentum.set_energy
  rw [if_neg (show ¬ ((2:ℝ) < 0) by norm_num),
    if_neg (show ¬ ((2:ℝ) ^ 2 -
        (FourMomentum.from_x_y_z_m 0 0 0 1).m ^ 2 < 0) from by
      show ¬ ((2:ℝ) ^ 2 - (1:ℝ) ^ 2 < 0); norm_num),
    if_pos (show FourMomentum.p (FourMomentum.from_x_y_z_m 0 0 0 1) = 0 from by
      unfold FourMomentum.p FourMomentum.from_x_y_z_m
      norm_num)]

/-- C3 amended: setting energy fails with InvalidValue when V < 0 or when
V^2 - mass^2 < 0; otherwise, when the three-momentum magnitude is zero it
fails with a division-by-zero, and when it is nonzero it succeeds, scaling
the momentum components by the nonnegative factor sqrt(V^2 - m^2)/p (mass
and direction fixed) so that energy afterwards reads V. -/
theorem set_energy_spec (fm : FourMomentum) (v : ℝ) :
    (v < 0 → FourMomentum.set_energy v fm = .error .invalidValue) ∧
    (¬ v < 0 → v ^ 2 - fm.m ^ 2 < 0 →
      FourMomentum.set_energy v fm = .error .invalidValue) ∧
    (¬ v < 0 → ¬ v ^ 2 - fm.m ^ 2 < 0 → FourMomentum.p fm = 0 →
      FourMomentum.set_energy v fm = .error .zeroDivision) ∧
    (¬ v < 0 → ¬ v ^ 2 - fm.m ^ 2 < 0 → FourMomentum.p fm ≠ 0 →
      FourMomentum.set_energy v fm =
        .ok ⟨fm.x * (Real.sqrt (v ^ 2 - fm.m ^ 2) / FourMomentum.p fm),
             fm.y * (Real.sqrt (v ^ 2 - fm.m ^ 2) / FourMomentum.p fm),
             fm.z * (Real.sqrt (v ^ 2 - fm.m ^ 2) / FourMomentum.p fm),
             fm.m⟩ ∧
      0 ≤ Real.sqrt (v ^ 2 - fm.m ^ 2) / FourMomentum.p fm ∧
      FourMomentum.energy
        ⟨fm.x * (Real.sqrt (v ^ 2 - fm.m ^ 2) / FourMomentum.p fm),
         fm.y * (Real.sqrt (v ^ 2 - fm.m ^ 2) / FourMomentum.p fm),
         fm.z * (Real.sqrt (v ^ 2 - fm.m ^ 2) / FourMomentum.p fm),
         fm.m⟩ = v) := by
  refine ⟨?_, ?_, ?_, ?_⟩
  · intro h1
    unfold FourMomentum.set_energy
    rw [if_pos h1]
  · intro h1 h2
    unfold FourMomentum.set_energy
    rw [if_neg h1, if_pos h2]
  · intro h1 h2 h3
    unfold FourMomentum.set_energy
    rw [if_neg h1, if_neg h2, if_pos h3]
  · intro h1 h2 h3
    have hp0 : 0 < FourMomentum.p fm :=
      lt_of_le_of_ne (Real.sqrt_nonneg _) (Ne.symm h3)
    have hs0 : (0:ℝ) ≤ Real.sqrt (v ^ 2 - fm.m ^ 2) / FourMomentum.p fm :=
      div_nonneg (Real.sqrt_nonneg _) hp0.le
    refine ⟨?_, hs0, ?_⟩
    · unfold FourMomentum.set_energy
      rw [if_neg h1, if_neg h2, if_neg h3]
    · set s := Real.sqrt (v ^ 2 - fm.m ^ 2) / FourMomentum.p fm with hs
      unfold FourMomentum.energy FourMomentum.p
      dsimp only
      have hS : (fm.x * s) ^ 2 + (fm.y * s) ^ 2 + (fm.z * s) ^ 2 =
          (fm.x ^ 2 + fm.y ^ 2 + fm.z ^ 2) * s ^ 2 := by ring
      rw [hS, Real.sqrt_mul (by positivity) (s ^ 2), Real.sqrt_sq hs0]
      have hpdef : Real.sqrt (fm.x ^ 2 + fm.y ^ 2 + fm.z ^ 2) =
          FourMomentum.p fm := rfl
      rw [hpdef, hs,
        show FourMomentum.p fm *
            (Real.sqrt (v ^ 2 - fm.m ^ 2) / FourMomentum.p fm) =
            Real.sqrt (v ^ 2 - fm.m ^ 2) from by
          rw [← mul_div_assoc]; exact mul_div_cancel_left₀ _ h3,
        Real.sq_sqrt (by linarith : (0:ℝ) ≤ v ^ 2 - fm.m ^ 2),
        show fm.m ^ 2 + (v ^ 2 - fm.m ^ 2) = v ^ 2 by ring,
        Real.sqrt_sq (by linarith : (0:ℝ) ≤ v)]

/-- Witness for `set_energy_spec`: the successful branch evaluated at
(3, 0, 0; m = 4) with target energy 5. -/
theorem set_energy_spec_witness :
    FourMomentum.set_energy 5 (FourMomentum.from_x_y_z_m 3 0 0 4) =
      .ok ⟨(3:ℝ) * (Real.sqrt ((5:ℝ) ^ 2 - (4:ℝ) ^ 2) /
              FourMomentum.p (FourMomentum.from_x_y_z_m 3 0 0 4)),
           (0:ℝ) * (Real.sqrt ((5:ℝ) ^ 2 - (4:ℝ) ^ 2) /
              FourMomentum.p (FourMomentum.from_x_y_z_m 3 0 0 4)),
           (0:ℝ) * (Real.sqrt ((5:ℝ) ^ 2 - (4:ℝ) ^ 2) /
              FourMomentum.p (FourMomentum.from_x_y_z_m 3 0 0 4)),
           (4:ℝ)⟩ ∧
    0 ≤ Real.sqrt ((5:ℝ) ^ 2 - (4:ℝ) ^ 2) /
          FourMomentum.p (FourMomentum.from_x_y_z_m 3 0 0 4) ∧
    FourMomentum.energy
      ⟨(3:ℝ) * (Real.sqrt ((5:ℝ) ^ 2 - (4:ℝ) ^ 2) /
          FourMomentum.p (FourMomentum.from_x_y_z_m 3 0 0 4)),
       (0:ℝ) * (Real.sqrt ((5:ℝ) ^ 2 - (4:ℝ) ^ 2) /
          FourMomentum.p (FourMomentum.from_x_y_z_m 3 0 0 4)),
       (0:ℝ) * (Real.sqrt ((5:ℝ) ^ 2 - (4:ℝ) ^ 2) /
          FourMomentum.p (FourMomentum.from_x_y_z_m 3 0 0 4)),
       (4:ℝ)⟩ = 5 :=
  (set_energy_spec (FourMomentum.from_x_y_z_m 3 0 0 4) 5).2.2.2
    (by norm_num)
    (by show ¬ ((5:ℝ) ^ 2 - (4:ℝ) ^ 2 < 0); norm_num)
    (by
      show FourMomentum.p (FourMomentum.from_x_y_z_m 3 0 0 4) ≠ 0
      have hp : FourMomentum.p (FourMomentum.from_x_y_z_m 3 0 0 4) = 3 := by
        unfold FourMomentum.p FourMomentum.from_x_y_z_m
        exact sqrt_eval (by norm_num) (by norm_num)
      rw [hp]
      norm_num)

/-- The squared 3-momentum is the sum of the squared components. -/
lemma p_sq (fm : FourMomentum) :
    FourMomentum.p fm ^ 2 = fm.x ^ 2 + fm.y ^ 2 + fm.z ^ 2 :=
  Real.sq_sqrt (by positivity)

/-- The energy getter never returns a negative value. -/
lemma energy_nonneg (fm : FourMomentum) : 0 ≤ FourMomentum.energy fm :=
  Real.sqrt_nonneg _

/-- The 3-momentum magnitude never exceeds the energy. -/
lemma p_le_energy (fm : FourMomentum) :
    FourMomentum.p fm ≤ FourMomentum.energy fm := by
  have h1 : FourMomentum.p fm = Real.sqrt (FourMomentum.p fm ^ 2) :=
    (Real.sqrt_sq (Real.sqrt_nonneg _)).symm
  rw [h1]
  exact Real.sqrt_le_sqrt (by nlinarith [sq_nonneg fm.m])

/-- Cauchy-Schwarz / triangle bound: the squared norm of the summed
3-momenta is at most the squared summed energies. -/
lemma sum_energy_sq_bound (a b : FourMomentum)
    (ha : FourMomentum.p a ≤ FourMomentum.energy a)
    (hb : FourMomentum.p b ≤ FourMomentum.energy b) :
    (a.x + b.x) ^ 2 + (a.y + b.y) ^ 2 + (a.z + b.z) ^ 2 ≤
      (FourMomentum.energy a + FourMomentum.energy b) ^ 2 := by
  have hpa2 := p_sq a
  have hpb2 := p_sq b
  have hpa0 : 0 ≤ FourMomentum.p a := Real.sqrt_nonneg _
  have hpb0 : 0 ≤ FourMomentum.p b := Real.sqrt_nonneg _
  have hEa0 : 0 ≤ FourMomentum.energy a := energy_nonneg a
  have hEb0 : 0 ≤ FourMomentum.energy b := energy_nonneg b
  have hd : a.x * b.x + a.y * b.y + a.z * b.z ≤
      FourMomentum.p a * FourMomentum.p b := by
    nlinarith [sq_nonneg (a.x * b.y - a.y * b.x),
      sq_nonneg (a.x * b.z - a.z * b.x), sq_nonneg (a.y * b.z - a.z * b.y),
      sq_nonneg (FourMomentum.p a * FourMomentum.p b -
        (a.x * b.x + a.y * b.y + a.z * b.z)),
      sq_nonneg (FourMomentum.p a * FourMomentum.p b +
        (a.x * b.x + a.y * b.y + a.z * b.z)),
      mul_nonneg hpa0 hpb0]
  nlinarith [hd, mul_le_mul ha hb hpb0 hEa0,
    mul_self_le_mul_self hpa0 ha, mul_self_le_mul_self hpb0 hb]

/-- C4: For every pair of FourMomenta a and b each satisfying
energy >= |3-momentum|, (a+b) has componentwise-summed momentum components
and energy equal to a.energy + b.energy, with the mass of the sum re-derived
as sqrt((a.energy+b.energy)^2 - |p_a+p_b|^2), not the sum of the masses. -/
theorem add_componentwise (a b : FourMomentum)
    (ha : FourMomentum.p a ≤ FourMomentum.energy a)
    (hb : FourMomentum.p b ≤ FourMomentum.energy b) :
    FourMomentum.fm_add a b =
      .ok (FourMomentum.from_x_y_z_m (a.x + b.x) (a.y + b.y) (a.z + b.z)
        (Real.sqrt ((FourMomentum.energy a + FourMomentum.energy b) ^ 2 -
          (a.x + b.x) ^ 2 - (a.y + b.y) ^ 2 - (a.z + b.z) ^ 2))) ∧
    (FourMomentum.from_x_y_z_m (a.x + b.x) (a.y + b.y) (a.z + b.z)
        (Real.sqrt ((FourMomentum.energy a + FourMomentum.energy b) ^ 2 -
          (a.x + b.x) ^ 2 - (a.y + b.y) ^ 2 - (a.z + b.z) ^ 2))).px =
      a.px + b.px ∧
    FourMomentum.energy
      (FourMomentum.from_x_y_z_m (a.x + b.x) (a.y + b.y) (a.z + b.z)
        (Real.sqrt ((FourMomentum.energy a + FourMomentum.energy b) ^ 2 -
          (a.x + b.x) ^ 2 - (a.y + b.y) ^ 2 - (a.z + b.z) ^ 2))) =
      FourMomentum.energy a + FourMomentum.energy b ∧
    (FourMomentum.from_x_y_z_m (a.x + b.x) (a.y + b.y) (a.z + b.z)
        (Real.sqrt ((FourMomentum.energy a + FourMomentum.energy b) ^ 2 -
          (a.x + b.x) ^ 2 - (a.y + b.y) ^ 2 - (a.z + b.z) ^ 2))).m =
      Real.sqrt ((FourMomentum.energy a + FourMomentum.energy b) ^ 2 -
        ((a.x + b.x) ^ 2 + (a.y + b.y) ^ 2 + (a.z + b.z) ^ 2)) := by
  have hkey := sum_energy_sq_bound a b ha hb
  have hE0 : 0 ≤ FourMomentum.energy a + FourMomentum.energy b :=
    add_nonneg (energy_nonneg a) (energy_nonneg b)
  set Ea := FourMomentum.energy a with hEa
  set Eb := FourMomentum.energy b with hEb
  refine ⟨?_, rfl, ?_, ?_⟩
  · unfold FourMomentum.fm_add FourMomentum.from_x_y_z_e
    rw [← hEa, ← hEb, if_neg (by linarith)]
  · unfold FourMomentum.energy FourMomentum.from_x_y_z_m FourMomentum.p
    dsimp only
    rw [Real.sq_sqrt (by linarith), Real.sq_sqrt (by positivity),
      show (Ea + Eb) ^ 2 -
          (a.x + b.x) ^ 2 - (a.y + b.y) ^ 2 - (a.z + b.z) ^ 2 +
          ((a.x + b.x) ^ 2 + (a.y + b.y) ^ 2 + (a.z + b.z) ^ 2) =
          (Ea + Eb) ^ 2 by ring]
    exact Real.sqrt_sq hE0
  · unfold FourMomentum.from_x_y_z_m
    dsimp only
    congr 1
    ring

/-- Witness for `add_componentwise` at (3, 0, 0; m = 4) plus
(-3, 0, 0; m = 4). -/
theorem add_componentwise_witness :
    FourMomentum.fm_add (FourMomentum.from_x_y_z_m 3 0 0 4)
      (FourMomentum.from_x_y_z_m (-3) 0 0 4) =
      .ok (FourMomentum.from_x_y_z_m ((3:ℝ) + -3) ((0:ℝ) + 0) ((0:ℝ) + 0)
        (Real.sqrt ((FourMomentum.energy (FourMomentum.from_x_y_z_m 3 0 0 4) +
            FourMomentum.energy (FourMomentum.from_x_y_z_m (-3) 0 0 4)) ^ 2 -
          ((3:ℝ) + -3) ^ 2 - ((0:ℝ) + 0) ^ 2 - ((0:ℝ) + 0) ^ 2))) ∧
    FourMomentum.energy
      (FourMomentum.from_x_y_z_m ((3:ℝ) + -3) ((0:ℝ) + 0) ((0:ℝ) + 0)
        (Real.sqrt ((FourMomentum.energy (FourMomentum.from_x_y_z_m 3 0 0 4) +
            FourMomentum.energy (FourMomentum.from_x_y_z_m (-3) 0 0 4)) ^ 2 -
          ((3:ℝ) + -3) ^ 2 - ((0:ℝ) + 0) ^ 2 - ((0:ℝ) + 0) ^ 2))) =
      FourMomentum.energy (FourMomentum.from_x_y_z_m 3 0 0 4) +
        FourMomentum.energy (FourMomentum.from_x_y_z_m (-3) 0 0 4) := by
  have h := add_componentwise (FourMomentum.from_x_y_z_m 3 0 0 4)
    (FourMomentum.from_x_y_z_m (-3) 0 0 4)
    (p_le_energy _) (p_le_energy _)
  exact ⟨h.1, h.2.2.1⟩

/-- Re-assigning the current energy (written, as in the pt setter, as
sqrt(p^2 + mass^2)) is the identity whenever the momentum is nonzero: the
rescale factor is exactly 1. -/
lemma set_energy_restore (fm : FourMomentum) (hp : FourMomentum.p fm ≠ 0) :
    FourMomentum.set_energy
      (Real.sqrt (FourMomentum.p fm ^ 2 + fm.m ^ 2)) fm = .ok fm := by
  have hp0 : 0 ≤ FourMomentum.p fm := Real.sqrt_nonneg _
  have hE0 : 0 ≤ Real.sqrt (FourMomentum.p fm ^ 2 + fm.m ^ 2) :=
    Real.sqrt_nonneg _
  have hE2 : Real.sqrt (FourMomentum.p fm ^ 2 + fm.m ^ 2) ^ 2 =
      FourMomentum.p fm ^ 2 + fm.m ^ 2 := Real.sq_sqrt (by positivity)
  have hsub : Real.sqrt (FourMomentum.p fm ^ 2 + fm.m ^ 2) ^ 2 - fm.m ^ 2 =
      FourMomentum.p fm ^ 2 := by rw [hE2]; ring
  have hnneg : ¬ (Real.sqrt (FourMomentum.p fm ^ 2 + fm.m ^ 2) ^ 2 -
      fm.m ^ 2 < 0) := by rw [hsub]; exact not_lt.mpr (by positivity)
  have hscale : Real.sqrt (Real.sqrt (FourMomentum.p fm ^ 2 + fm.m ^ 2) ^ 2 -
      fm.m ^ 2) = FourMomentum.p fm := by
    rw [hsub]; exact Real.sqrt_sq hp0
  unfold FourMomentum.set_energy
  rw [if_neg (not_lt.mpr hE0), if_neg hnneg, if_neg hp, hscale, div_self hp]
  simp

/-- A nonnegative pt write succeeds and stores exactly the sin/cos pair the
source computes, provided the resulting total momentum is nonzero. -/
lemma set_pt_ok_eval (v : ℝ) (fm : FourMomentum) (hv : ¬ v < 0)
    (hp : FourMomentum.p (FourMomentum.mk (v * Real.sin (FourMomentum.phi fm))
        (v * Real.cos (FourMomentum.phi fm)) fm.z fm.m) ≠ 0) :
    FourMomentum.set_pt v fm =
      .ok (FourMomentum.mk (v * Real.sin (FourMomentum.phi fm))
        (v * Real.cos (FourMomentum.phi fm)) fm.z fm.m) := by
  unfold FourMomentum.set_pt
  rw [if_neg hv]
  exact set_energy_restore _ hp

/-- C2: the failing input for the pt-setter contract.  Before the write on
(1, 0, 0; m = 0), phi reads 0; writing pt = 2 succeeds and yields
(0, 2, 0; m = 0), on which pt reads 2 and mass is unchanged, but phi now
reads pi/2, not the original 0: the setter swaps sin and cos relative to
the phi getter, so phi is not preserved. -/
theorem set_pt_changes_phi :
    FourMomentum.phi (FourMomentum.from_x_y_z_m 1 0 0 0) = 0 ∧
    FourMomentum.set_pt 2 (FourMomentum.from_x_y_z_m 1 0 0 0) =
      .ok (FourMomentum.from_x_y_z_m 0 2 0 0) ∧
    FourMomentum.pt (FourMomentum.from_x_y_z_m 0 2 0 0) = 2 ∧
    (FourMomentum.from_x_y_z_m 0 2 0 0).m =
      (FourMomentum.from_x_y_z_m 1 0 0 0).m ∧
    FourMomentum.phi (FourMomentum.from_x_y_z_m 0 2 0 0) = Real.pi / 2 ∧
    Real.pi / 2 ≠ 0 := by
  have h1 : FourMomentum.phi (FourMomentum.from_x_y_z_m 1 0 0 0) = 0 := by
    show FourMomentum.atan2 0 1 = 0
    unfold FourMomentum.atan2
    rw [if_pos (show (0:ℝ) < 1 by norm_num),
      show (0:ℝ) / 1 = 0 by norm_num, Real.arctan_zero]
  have hrec : FourMomentum.mk
      (2 * Real.sin (FourMomentum.phi (FourMomentum.from_x_y_z_m 1 0 0 0)))
      (2 * Real.cos (FourMomentum.phi (FourMomentum.from_x_y_z_m 1 0 0 0)))
      (FourMomentum.from_x_y_z_m 1 0 0 0).z
      (FourMomentum.from_x_y_z_m 1 0 0 0).m =
      FourMomentum.from_x_y_z_m 0 2 0 0 := by
    rw [h1, Real.sin_zero, Real.cos_zero]
    show FourMomentum.mk (2 * 0) (2 * 1) 0 0 = FourMomentum.mk 0 2 0 0
    norm_num
  have h2 : FourMomentum.set_pt 2 (FourMomentum.from_x_y_z_m 1 0 0 0) =
      .ok (FourMomentum.from_x_y_z_m 0 2 0 0) := by
    have hp : FourMomentum.p (FourMomentum.mk
        (2 * Real.sin (FourMomentum.phi (FourMomentum.from_x_y_z_m 1 0 0 0)))
        (2 * Real.cos (FourMomentum.phi (FourMomentum.from_x_y_z_m 1 0 0 0)))
        (FourMomentum.from_x_y_z_m 1 0 0 0).z
        (FourMomentum.from_x_y_z_m 1 0 0 0).m) ≠ 0 := by
      rw [hrec]
      have : FourMomentum.p (FourMomentum.from_x_y_z_m 0 2 0 0) = 2 := by
        unfold FourMomentum.p FourMomentum.from_x_y_z_m
        exact sqrt_eval (by norm_num) (by norm_num)
      rw [this]
      norm_num
    rw [set_pt_ok_eval 2 _ (by norm_num) hp, hrec]
  have h3 : FourMomentum.pt (FourMomentum.from_x_y_z_m 0 2 0 0) = 2 := by
    unfold FourMomentum.pt FourMomentum.from_x_y_z_m
    exact sqrt_eval (by norm_num) (by norm_num)
  have h5 : FourMomentum.phi (FourMomentum.from_x_y_z_m 0 2 0 0) =
      Real.pi / 2 := by
    show FourMomentum.atan2 2 0 = Real.pi / 2
    unfold FourMomentum.atan2
    rw [if_neg (show ¬ ((0:ℝ) < 0) by norm_num),
      if_neg (show ¬ ((0:ℝ) < 0) by norm_num),
      if_pos (show (0:ℝ) < 2 by norm_num)]
  exact ⟨h1, h2, h3, rfl, h5, by positivity⟩

/-- The zero four-vector created by `FourMomentum.__init__` has energy 0. -/
lemma energy_init : FourMomentum.energy FourMomentum.init = 0 := by
  show Real.sqrt ((0:ℝ) ^ 2 +
    Real.sqrt ((0:ℝ) ^ 2 + (0:ℝ) ^ 2 + (0:ℝ) ^ 2) ^ 2) = 0
  rw [show (0:ℝ) ^ 2 + (0:ℝ) ^ 2 + (0:ℝ) ^ 2 = 0 by norm_num, Real.sqrt_zero,
    show (0:ℝ) ^ 2 + (0:ℝ) ^ 2 = 0 by norm_num, Real.sqrt_zero]

/-- The energy of the massless (10, 20, 30) vector. -/
lemma energy_10_20_30 :
    FourMomentum.energy (FourMomentum.from_x_y_z_m 10 20 30 0) =
      Real.sqrt 1400 := by
  show Real.sqrt ((0:ℝ) ^ 2 +
    Real.sqrt ((10:ℝ) ^ 2 + (20:ℝ) ^ 2 + (30:ℝ) ^ 2) ^ 2) = Real.sqrt 1400
  rw [Real.sq_sqrt (by norm_num : (0:ℝ) ≤ (10:ℝ) ^ 2 + (20:ℝ) ^ 2 + (30:ℝ) ^ 2)]
  norm_num

/-- Adding the massless (10, 20, 30) vector to the zero start vector of the
Python `sum` reproduces it exactly. -/
lemma fm_add_init_10_20_30 :
    FourMomentum.fm_add FourMomentum.init
      (FourMomentum.from_x_y_z_m 10 20 30 0) =
      .ok (FourMomentum.from_x_y_z_m 10 20 30 0) := by
  unfold FourMomentum.fm_add
  rw [energy_init, energy_10_20_30]
  show FourMomentum.from_x_y_z_e ((0:ℝ) + 10) ((0:ℝ) + 20) ((0:ℝ) + 30)
    ((0:ℝ) + Real.sqrt 1400) = .ok (FourMomentum.from_x_y_z_m 10 20 30 0)
  unfold FourMomentum.from_x_y_z_e
  rw [if_neg (show ¬ (((0:ℝ) + Real.sqrt 1400) ^ 2 - ((0:ℝ) + 10) ^ 2 -
      ((0:ℝ) + 20) ^ 2 - ((0:ℝ) + 30) ^ 2 < 0) from by
    simp only [zero_add]
    rw [Real.sq_sqrt (by norm_num : (0:ℝ) ≤ 1400)]
    norm_num)]
  congr 1
  unfold FourMomentum.from_x_y_z_m
  simp only [zero_add]
  rw [Real.sq_sqrt (by norm_num : (0:ℝ) ≤ 1400)]
  norm_num [Real.sqrt_zero]

/-- C1: the failing input for the met contract.  For the event holding the
single electron with four-momentum (10, 20, 30; m = 0), met (with the
default neutrino exclusion set) returns the PLAIN vector sum: its px reads
+10, not the -10 a negated sum would give; likewise for GenEvent.met, which
does additionally keep only status == 1 members before summing. -/
theorem met_not_negated :
    met ⟨[particle_init (FourMomentum.from_x_y_z_m 10 20 30 0) 11 (-1)]⟩
      [12, 14, 16] = .ok (FourMomentum.from_x_y_z_m 10 20 30 0) ∧
    gen_met ⟨[genparticle_init (FourMomentum.from_x_y_z_m 10 20 30 0) 11 (-1) 1,
      genparticle_init (FourMomentum.from_x_y_z_m 5 5 5 2) 11 (-1) 3,
      genparticle_init (FourMomentum.from_x_y_z_m (-1) (-2) (-3) 0) 12 0 1]⟩
      [12, 14, 16] = .ok (FourMomentum.from_x_y_z_m 10 20 30 0) ∧
    (FourMomentum.from_x_y_z_m 10 20 30 0).px = 10 ∧
    (10:ℝ) ≠ -10 := by
  refine ⟨?_, ?_, rfl, by norm_num⟩
  · unfold met
    show FourMomentum.fm_add FourMomentum.init
      (FourMomentum.from_x_y_z_m 10 20 30 0) =
      .ok (FourMomentum.from_x_y_z_m 10 20 30 0)
    exact fm_add_init_10_20_30
  · unfold gen_met
    show FourMomentum.fm_add FourMomentum.init
      (FourMomentum.from_x_y_z_m 10 20 30 0) =
      .ok (FourMomentum.from_x_y_z_m 10 20 30 0)
    exact fm_add_init_10_20_30

end PyHEP
